import Mathlib

/-!
Verification development for the Badam Satti ("Sevens") game engine in
`backend/server.py`.  The pure game-rules core (deck construction, dealing,
legal-move computation, move/pass application, AI card choice) is shallowly
embedded below.  Python dictionaries holding the game state are rendered as
Lean structures; in-place mutation plus exception raising is rendered by
returning a `CallResult` that carries both the (possibly partially mutated)
state and an optional Python-style error.  Machine integers are `Int`/`Nat`
(no overflow is reachable: rank values live in 1..13).
-/

/-- A playing card as it appears in requests and hands: a pair of strings.
Two cards are equal iff rank and suit match (Python dict value equality). -/
structure Card where
  rank : String
  suit : String
deriving DecidableEq, Inhabited

/-- The display/value record stored for each rank in `CARD_RANKS`.
The image-generation `prompt` field is omitted: no game logic reads it. -/
structure RankInfo where
  name : String
  label : String
  value : Int
deriving DecidableEq, Inhabited

/-- The record stored for each suit in `SUIT_COLORS`. -/
structure SuitInfo where
  name : String
  color : String
  symbol : String
deriving DecidableEq, Inhabited

/-- `CARD_RANKS` as a lookup: Python dict access `CARD_RANKS[rank]` is
`(CARD_RANKS rank)` here, with `none` standing for a `KeyError`. -/
def CARD_RANKS : String → Option RankInfo
  | "K" => some ⟨"King", "Deep Space", 13⟩
  | "Q" => some ⟨"Queen", "Orbit", 12⟩
  | "J" => some ⟨"Jack", "20km", 11⟩
  | "10" => some ⟨"Ten", "10km", 10⟩
  | "9" => some ⟨"Nine", "1km", 9⟩
  | "8" => some ⟨"Eight", "100m", 8⟩
  | "7" => some ⟨"Seven", "Surface", 7⟩
  | "6" => some ⟨"Six", "-10m", 6⟩
  | "5" => some ⟨"Five", "-1km", 5⟩
  | "4" => some ⟨"Four", "-5km", 4⟩
  | "3" => some ⟨"Three", "Mantle", 3⟩
  | "2" => some ⟨"Two", "Outer Core", 2⟩
  | "A" => some ⟨"Ace", "Center of Earth", 1⟩
  | _ => none

/-- `SUIT_COLORS` as a lookup; `none` stands for a `KeyError`. -/
def SUIT_COLORS : String → Option SuitInfo
  | "hearts" => some ⟨"Hearts", "#E0115F", "H"⟩
  | "spades" => some ⟨"Spades", "#00FFFF", "S"⟩
  | "diamonds" => some ⟨"Diamonds", "#FFD700", "D"⟩
  | "clubs" => some ⟨"Clubs", "#228B22", "C"⟩
  | _ => none

/-- `SUIT_COLORS.keys()` in insertion order. -/
def SUIT_KEYS : List String := ["hearts", "spades", "diamonds", "clubs"]

/-- `CARD_RANKS.keys()` in insertion order. -/
def RANK_KEYS : List String :=
  ["K", "Q", "J", "10", "9", "8", "7", "6", "5", "4", "3", "2", "A"]

/-- `create_deck`: the 52-card product, suits outer, ranks inner. -/
def create_deck : List Card :=
  SUIT_KEYS.flatMap (fun suit => RANK_KEYS.map (fun rank => ⟨rank, suit⟩))

/-- One step of the `deal_cards` loop: append card to hand `i % num_players`
and bump the enumeration index. -/
def deal_step (num_players : Nat) (acc : List (List Card) × Nat) (card : Card) :
    List (List Card) × Nat :=
  (acc.1.set (acc.2 % num_players) ((acc.1.getD (acc.2 % num_players) []) ++ [card]),
   acc.2 + 1)

/-- `deal_cards(deck, num_players)`: round-robin deal, card `i` to hand
`i % num_players`, preserving deck order within each hand. -/
def deal_cards (deck : List Card) (num_players : Nat) : List (List Card) :=
  (deck.foldl (deal_step num_players) (List.replicate num_players [], 0)).1

/-- Per-suit board state: the dict
`{"low": .., "high": .., "has_seven": .., "cards": [..]}`. -/
structure SuitState where
  low : Option Int
  high : Option Int
  has_seven : Bool
  cards : List Card
deriving DecidableEq, Inhabited

/-- A player record; the `hand` is the only field game logic mutates. -/
structure Player where
  id : String
  name : String
  is_host : Bool
  is_ai : Bool
  hand : List Card
deriving DecidableEq, Inhabited

/-- Fallback player for out-of-range list indexing (Python would raise
`IndexError`; theorems always carry an in-bounds hypothesis). -/
def dummyPlayer : Player := ⟨"", "", false, false, []⟩

/-- The board dict: exactly one `SuitState` per suit key. -/
structure Board where
  hearts : SuitState
  spades : SuitState
  diamonds : SuitState
  clubs : SuitState
deriving DecidableEq, Inhabited

/-- `board[suit]` / `board.get(suit)`: `none` is a missing key. -/
def Board.bget (b : Board) (suit : String) : Option SuitState :=
  if suit = "hearts" then some b.hearts
  else if suit = "spades" then some b.spades
  else if suit = "diamonds" then some b.diamonds
  else if suit = "clubs" then some b.clubs
  else none

/-- `board[suit] = st` (in-place suit-state update; no-op on a key that is
not present, which the engine never does: updates are guarded by `bget`). -/
def Board.bset (b : Board) (suit : String) (st : SuitState) : Board :=
  if suit = "hearts" then { b with hearts := st }
  else if suit = "spades" then { b with spades := st }
  else if suit = "diamonds" then { b with diamonds := st }
  else if suit = "clubs" then { b with clubs := st }
  else b

/-- The game-state dict built by `initialize_game_state` and mutated by
`play_card_logic` / `pass_turn_logic`. -/
structure GameState where
  board : Board
  current_player_index : Nat
  players : List Player
  winner : Option String
  last_action : String
  turn_number : Nat
deriving DecidableEq, Inhabited

/-- Python exceptions escaping the game-logic functions. -/
inductive PyErr where
  | valueError (msg : String)
  | keyError (key : String)
  | typeError
  | indexError
deriving DecidableEq

/-- Result of calling a state-mutating logic function: the error raised (if
any) together with the state as left after the call — Python mutates the
dict in place, so mutations made before a raise persist. -/
structure CallResult where
  err : Option PyErr
  state : GameState
deriving DecidableEq

/-- The default suit-state `{"low": None, "high": None, "has_seven": False}`
used by `board_state.get(suit, ...)` in `get_playable_cards`. -/
def defaultSuitState : SuitState := ⟨none, none, false, []⟩

/-- Loop body of `get_playable_cards` for one hand card.  A hand card whose
rank is missing from `CARD_RANKS` would raise `KeyError` in Python; dealt
hands only ever hold deck cards, and the embedding skips such a card.
Likewise `suit_state["low"] - 1` on an unset extreme would raise
`TypeError`; extremes are set whenever `has_seven` is, and the embedding
treats the card as not playable there. -/
def gpc_step (board_state : Board) (playable : List Card) (card : Card) :
    List Card :=
  match CARD_RANKS card.rank with
  | none => playable
  | some rinfo =>
    let rank_value := rinfo.value
    let suit_state := (board_state.bget card.suit).getD defaultSuitState
    if card.rank = "7" ∧ suit_state.has_seven = false then
      playable ++ [card]
    else if suit_state.has_seven then
      match suit_state.low, suit_state.high with
      | some low, some high =>
        if rank_value = low - 1 then playable ++ [card]
        else if rank_value = high + 1 then playable ++ [card]
        else playable
      | _, _ => playable
    else playable

/-- `get_playable_cards(board_state, player_hand, is_first_move=False)`:
on the first move only the 7 of hearts is playable; otherwise a card is
playable if it is a 7 of a suit whose 7 is not yet on the board, or extends
that suit's run one step below `low` or one step above `high`. -/
def get_playable_cards (board_state : Board) (player_hand : List Card)
    (is_first_move : Bool := false) : List Card :=
  if is_first_move then
    match player_hand.find? (fun c => c.rank == "7" && c.suit == "hearts") with
    | some c => [c]
    | none => []
  else
    player_hand.foldl (gpc_step board_state) []

/-- `find_starting_player(players)`: first seat holding the 7 of hearts,
seat 0 as fallback. -/
def find_starting_player (players : List Player) : Nat :=
  match players.findIdx?
      (fun p => p.hand.any (fun c => c.rank == "7" && c.suit == "hearts")) with
  | some i => i
  | none => 0

/-- The fresh board of `initialize_game_state`: all four suit runs closed. -/
def freshBoard : Board :=
  ⟨defaultSuitState, defaultSuitState, defaultSuitState, defaultSuitState⟩

/-- `initialize_game_state(players)`.  The shuffled deck is a parameter
(`shuffle_deck` is a random permutation produced by the standard library);
hands are assigned seat-by-seat exactly as the Python loop does. -/
def initialize_game_state (players : List Player) (deck : List Card) : GameState :=
  let hands := deal_cards deck players.length
  let players2 := players.zipWith (fun p h => { p with hand := h }) hands
  let starting_player := find_starting_player players2
  { board := freshBoard
    current_player_index := starting_player
    players := players2
    winner := none
    last_action :=
      (players2.getD starting_player dummyPlayer).name ++
        " goes first (has 7 of Hearts)"
    turn_number := 1 }

/-- The card-identity test of the hand-removal loop in `play_card_logic`:
`hand_card["rank"] == rank and hand_card["suit"] == suit`. -/
def card_match (card c : Card) : Bool :=
  c.rank == card.rank && c.suit == card.suit

/-- The player at the current-turn seat (`players[current_index]`). -/
def current_player (gs : GameState) : Player :=
  gs.players.getD gs.current_player_index dummyPlayer

/-- The acting player after the hand-removal step popped the first card
matching the submitted one. -/
def player_after_removal (gs : GameState) (card : Card) : Player :=
  { current_player gs with
    hand := (current_player gs).hand.eraseP (card_match card) }

/-- The game state as left by the hand-removal step of `play_card_logic`
(the only mutation performed before board validation). -/
def gs_after_removal (gs : GameState) (card : Card) : GameState :=
  { gs with
    players := gs.players.set gs.current_player_index (player_after_removal gs card) }

/-- The win-or-advance epilogue shared by the three successful branches of
`play_card_logic`: empty hand crowns the winner and freezes the turn
pointer and counter; otherwise the turn advances round-robin and the
counter is incremented. -/
def play_finish (card : Card) (current_index num_players : Nat)
    (player2 : Player) (gs1 : GameState) (board2 : Board) : CallResult :=
  if player2.hand.length = 0 then
    ⟨none, { gs1 with
              board := board2
              winner := some player2.id
              last_action := player2.name ++ " wins!" }⟩
  else
    ⟨none, { gs1 with
              board := board2
              current_player_index := (current_index + 1) % num_players
              turn_number := gs1.turn_number + 1
              last_action := player2.name ++ " played " ++ card.rank ++
                " of " ++ ((SUIT_COLORS card.suit).getD default).name }⟩

/-- `play_card_logic(game_state, player_id, card)`.  Mirrors the source line
by line: turn check, rank lookup (possible `KeyError`), removal of the first
matching card from the hand, then board validation and update, then the
win/advance epilogue. -/
def play_card_logic (game_state : GameState) (player_id : String) (card : Card) :
    CallResult :=
  let players := game_state.players
  let current_index := game_state.current_player_index
  if current_index < players.length then
    let player := players.getD current_index dummyPlayer
    if player.id ≠ player_id then
      ⟨some (PyErr.valueError "Not your turn"), game_state⟩
    else
      match CARD_RANKS card.rank with
      | none => ⟨some (PyErr.keyError card.rank), game_state⟩
      | some rinfo =>
        let rank_value := rinfo.value
        if player.hand.any (card_match card) then
          let player2 :=
            { player with hand := player.hand.eraseP (card_match card) }
          let gs1 := { game_state with players := players.set current_index player2 }
          let finish := play_finish card current_index players.length player2 gs1
          match game_state.board.bget card.suit with
          | none => ⟨some (PyErr.keyError card.suit), gs1⟩
          | some suit_state =>
            if card.rank = "7" then
              if suit_state.has_seven then
                ⟨some (PyErr.valueError "7 already played for this suit"), gs1⟩
              else
                finish (game_state.board.bset card.suit
                  ⟨some 7, some 7, true, suit_state.cards ++ [card]⟩)
            else
              if suit_state.has_seven = false then
                ⟨some (PyErr.valueError "Must play 7 first for this suit"), gs1⟩
              else
                match suit_state.low, suit_state.high with
                | some low, some high =>
                  if rank_value = low - 1 then
                    finish (game_state.board.bset card.suit
                      ⟨some rank_value, some high, true, suit_state.cards ++ [card]⟩)
                  else if rank_value = high + 1 then
                    finish (game_state.board.bset card.suit
                      ⟨some low, some rank_value, true, suit_state.cards ++ [card]⟩)
                  else
                    ⟨some (PyErr.valueError "Invalid play - card must extend the sequence"),
                     gs1⟩
                | _, _ => ⟨some PyErr.typeError, gs1⟩
        else
          ⟨some (PyErr.valueError "You don't have this card"), game_state⟩
  else
    ⟨some PyErr.indexError, game_state⟩

/-- `pass_turn_logic(game_state, player_id)`.  Note: the call to
`get_playable_cards` passes no `is_first_move` argument, so the default
`False` is used on every turn, including turn 1. -/
def pass_turn_logic (game_state : GameState) (player_id : String) : CallResult :=
  let players := game_state.players
  let current_index := game_state.current_player_index
  if current_index < players.length then
    let player := players.getD current_index dummyPlayer
    if player.id ≠ player_id then
      ⟨some (PyErr.valueError "Not your turn"), game_state⟩
    else
      let playable := get_playable_cards game_state.board player.hand
      if playable.length > 0 then
        ⟨some (PyErr.valueError "You have playable cards - cannot pass"), game_state⟩
      else
        ⟨none, { game_state with
                  current_player_index := (current_index + 1) % players.length
                  turn_number := game_state.turn_number + 1
                  last_action := player.name ++ " passed" }⟩
  else
    ⟨some PyErr.indexError, game_state⟩

/-- Score one candidate card in the `hard` branch of `ai_choose_card`. -/
def ai_score (player : Player) (card : Card) : Int :=
  let rank_value := ((CARD_RANKS card.rank).getD default).value
  player.hand.foldl (fun score hand_card =>
    if hand_card.suit = card.suit then
      let hc_value := ((CARD_RANKS hand_card.rank).getD default).value
      if rank_value < 7 then
        if hc_value = rank_value - 1 then score + 2 else score
      else
        if hc_value = rank_value + 1 then score + 2 else score
    else score) 0

/-- `ai_choose_card(game_state, player, difficulty="medium")`.  The two
`random.choice` call sites are abstracted by the `choice` parameter ("given
the same random choices"); both sites only ever receive a non-empty list. -/
def ai_choose_card (choice : List Card → Card) (game_state : GameState)
    (player : Player) (difficulty : String := "medium") : Option Card :=
  let is_first_move := game_state.turn_number = 1
  let playable := get_playable_cards game_state.board player.hand is_first_move
  if playable.isEmpty then none
  else if difficulty = "easy" then some (choice playable)
  else
    let sevens := playable.filter (fun c => c.rank == "7")
    if ¬ sevens.isEmpty then
      if difficulty = "hard" then
        let best := sevens.foldl (fun (acc : Option Card × Int) seven =>
          let best_count :=
            ((player.hand.filter (fun c => c.suit == seven.suit)).length : Int)
          if best_count > acc.2 then (some seven, best_count) else acc)
          (none, -1)
        match best.1 with
        | some s => some s
        | none => sevens.head?
      else some (sevens.headD default)
    else if difficulty = "hard" then
      let scored_cards := playable.map (fun c => (c, ai_score player c))
      match scored_cards with
      | [] => none
      | s :: rest =>
        some (rest.foldl (fun best p => if p.2 > best.2 then p else best) s).1
    else some (choice playable)

/-! ## Concrete fixtures used by witnesses and counterexamples -/

/-- Two-player fixture: Alice holds 7♥ and 9♥, Bob holds 6♥ and 8♥. -/
def wPlayerA : Player := ⟨"a", "Alice", true, false, [⟨"7", "hearts"⟩, ⟨"9", "hearts"⟩]⟩

/-- Second fixture player. -/
def wPlayerB : Player := ⟨"b", "Bob", false, false, [⟨"6", "hearts"⟩, ⟨"8", "hearts"⟩]⟩

/-- Fresh two-player game on turn 1, Alice (seat 0) to move. -/
def wgs0 : GameState := ⟨freshBoard, 0, [wPlayerA, wPlayerB], none, "", 1⟩

/-! ## C10: rank lookup precedes the hand check -/

/-- C10: `play_card_logic` resolves the card's rank in `CARD_RANKS` before
looking at the acting player's hand.  The lookup is defined for all 13 rank
symbols; for any other rank string the call raises a `KeyError` (not one of
the `ValueError` kinds) and returns with the whole `GameState` unchanged,
whatever the hand holds. -/
theorem c10_rank_lookup_before_hand (gs : GameState) (pid : String) (card : Card)
    (hidx : gs.current_player_index < gs.players.length)
    (hpid : (gs.players.getD gs.current_player_index dummyPlayer).id = pid) :
    (∀ r ∈ RANK_KEYS, (CARD_RANKS r).isSome) ∧
    (CARD_RANKS card.rank = none →
      play_card_logic gs pid card = ⟨some (PyErr.keyError card.rank), gs⟩) := by
  refine ⟨by decide, fun h => ?_⟩
  rw [List.getD_eq_getElem _ _ hidx] at hpid
  unfold play_card_logic
  simp [hidx, hpid, h]

/-- Witness for C10 at a concrete state and the undefined rank "Z". -/
theorem c10_witness :
    (∀ r ∈ RANK_KEYS, (CARD_RANKS r).isSome) ∧
    play_card_logic wgs0 "a" ⟨"Z", "hearts"⟩ =
      ⟨some (PyErr.keyError "Z"), wgs0⟩ := by
  have h := c10_rank_lookup_before_hand wgs0 "a" ⟨"Z", "hearts"⟩ (by decide) rfl
  exact ⟨h.1, h.2 rfl⟩

/-! ## C9: unrecognized AI difficulty behaves as "medium" -/

/-- C9: with the same random-choice oracle, `ai_choose_card` under any
difficulty other than "easy" and "hard" returns exactly what it returns
under "medium". -/
theorem c9_ai_unknown_difficulty_is_medium (choice : List Card → Card)
    (gs : GameState) (p : Player) (d : String)
    (h1 : d ≠ "easy") (h2 : d ≠ "hard") :
    ai_choose_card choice gs p d = ai_choose_card choice gs p "medium" := by
  unfold ai_choose_card
  have e1 : ("medium" = "easy") = False := eq_false (by decide)
  have e2 : ("medium" = "hard") = False := eq_false (by decide)
  simp only [if_neg h1, if_neg h2, e1, e2, if_false]

/-- Witness for C9 at a concrete state and the difficulty string "expert". -/
theorem c9_witness :
    ai_choose_card (fun l => l.headD default) wgs0 wPlayerA "expert" =
      ai_choose_card (fun l => l.headD default) wgs0 wPlayerA "medium" :=
  c9_ai_unknown_difficulty_is_medium (fun l => l.headD default) wgs0 wPlayerA
    "expert" (by decide) (by decide)

/-! ## C2: characterization of get_playable_cards -/

/-- Boolean playability of a single card, mirroring one pass of
`gpc_step`: the appended-iff condition of the loop body. -/
def card_playable (board : Board) (card : Card) : Bool :=
  match CARD_RANKS card.rank with
  | none => false
  | some rinfo =>
    let suit_state := (board.bget card.suit).getD defaultSuitState
    if card.rank = "7" ∧ suit_state.has_seven = false then true
    else if suit_state.has_seven then
      match suit_state.low, suit_state.high with
      | some low, some high =>
        if rinfo.value = low - 1 then true
        else if rinfo.value = high + 1 then true
        else false
      | _, _ => false
    else false

/-- `gpc_step` appends the card exactly when `card_playable` holds. -/
theorem gpc_step_eq (board : Board) (acc : List Card) (card : Card) :
    gpc_step board acc card =
      if card_playable board card then acc ++ [card] else acc := by
  unfold gpc_step card_playable
  cases hR : CARD_RANKS card.rank
  · simp
  · dsimp only
    rcases hlo : ((board.bget card.suit).getD defaultSuitState).low with _ | lo <;>
      rcases hhi : ((board.bget card.suit).getD defaultSuitState).high with _ | hi <;>
        split_ifs <;> simp_all
    tauto

/-- The legal-move fold is a filter of the hand. -/
theorem gpc_foldl_eq (board : Board) :
    ∀ (hand acc : List Card),
      hand.foldl (gpc_step board) acc = acc ++ hand.filter (card_playable board)
  | [], acc => by simp
  | c :: rest, acc => by
    rw [List.foldl_cons, gpc_step_eq, gpc_foldl_eq board rest, List.filter_cons]
    split_ifs <;> simp

/-- Non-opening legal moves are exactly the hand filtered by
`card_playable`. -/
theorem gpc_false_eq_filter (board : Board) (hand : List Card) :
    get_playable_cards board hand false = hand.filter (card_playable board) := by
  unfold get_playable_cards
  rw [if_neg (by simp), gpc_foldl_eq]
  simp

/-- Well-formed board: any suit whose 7 is on the board has both extremes
set.  `initialize_game_state` establishes this and every operation
preserves it. -/
def BoardWF (b : Board) : Prop :=
  ∀ s ∈ [b.hearts, b.spades, b.diamonds, b.clubs],
    s.has_seven = true → s.low.isSome ∧ s.high.isSome

instance (b : Board) : Decidable (BoardWF b) := by
  unfold BoardWF; infer_instance

/-- A successful suit lookup lands on one of the four suit fields. -/
theorem bget_mem (b : Board) (name : String) (s : SuitState)
    (h : b.bget name = some s) :
    s ∈ [b.hearts, b.spades, b.diamonds, b.clubs] := by
  unfold Board.bget at h
  split_ifs at h <;> simp_all

/-- `card_playable` unfolded into the specification-level condition. -/
theorem card_playable_iff (board : Board) (c : Card)
    (hR : (CARD_RANKS c.rank).isSome) (hwf : BoardWF board) :
    card_playable board c = true ↔
      ((c.rank = "7" ∧ ((board.bget c.suit).getD defaultSuitState).has_seven = false) ∨
       (((board.bget c.suit).getD defaultSuitState).has_seven = true ∧
        ∃ ri l h, CARD_RANKS c.rank = some ri ∧
          ((board.bget c.suit).getD defaultSuitState).low = some l ∧
          ((board.bget c.suit).getD defaultSuitState).high = some h ∧
          (ri.value = l - 1 ∨ ri.value = h + 1))) := by
  obtain ⟨ri, hri⟩ := Option.isSome_iff_exists.mp hR
  unfold card_playable
  rw [hri]
  dsimp only
  cases hb : board.bget c.suit with
  | none =>
    by_cases h7 : c.rank = "7" <;>
      simp [defaultSuitState, h7]
  | some s0 =>
    have hsm := bget_mem board c.suit s0 hb
    simp only [Option.getD_some]
    cases hs : s0.has_seven with
    | false =>
      by_cases h7 : c.rank = "7" <;> simp [hs, h7]
    | true =>
      obtain ⟨hlo, hhi⟩ := hwf s0 hsm hs
      obtain ⟨lo, hlo⟩ := Option.isSome_iff_exists.mp hlo
      obtain ⟨hi, hhi⟩ := Option.isSome_iff_exists.mp hhi
      rw [hlo, hhi]
      simp only [hs, hri]
      by_cases ha : ri.value = lo - 1
      · simp [ha]
      · by_cases hbb : ri.value = hi + 1 <;> simp [ha, hbb]

/-- C2: for a well-formed board and a hand of deck cards,
`get_playable_cards` with the opening flag returns exactly the singleton
7 of hearts when the hand holds it and the empty list otherwise; without
the flag it returns exactly those hand cards that are a 7 of a suit whose
anchor is not yet played, or whose rank value extends that suit's run by
one below `low` or one above `high`.  The function is pure by
construction. -/
theorem c2_legal_moves (board : Board) (hand : List Card)
    (hranks : ∀ c ∈ hand, (CARD_RANKS c.rank).isSome)
    (hwf : BoardWF board) :
    (get_playable_cards board hand true =
      if (⟨"7", "hearts"⟩ : Card) ∈ hand then [⟨"7", "hearts"⟩] else []) ∧
    (∀ c : Card, c ∈ get_playable_cards board hand false ↔
      c ∈ hand ∧
      ((c.rank = "7" ∧ ((board.bget c.suit).getD defaultSuitState).has_seven = false) ∨
       (((board.bget c.suit).getD defaultSuitState).has_seven = true ∧
        ∃ ri l h, CARD_RANKS c.rank = some ri ∧
          ((board.bget c.suit).getD defaultSuitState).low = some l ∧
          ((board.bget c.suit).getD defaultSuitState).high = some h ∧
          (ri.value = l - 1 ∨ ri.value = h + 1)))) := by
  constructor
  · unfold get_playable_cards
    rw [if_pos rfl]
    cases hf : hand.find? (fun c => c.rank == "7" && c.suit == "hearts") with
    | none =>
      have hnm : (⟨"7", "hearts"⟩ : Card) ∉ hand := by
        intro hm
        have := List.find?_eq_none.mp hf _ hm
        simp at this
      rw [if_neg hnm]
    | some c =>
      have hp := List.find?_some hf
      have hm := List.mem_of_find?_eq_some hf
      obtain ⟨cr, cs⟩ := c
      simp only [Bool.and_eq_true, beq_iff_eq] at hp
      obtain ⟨h1, h2⟩ := hp
      subst h1; subst h2
      rw [if_pos hm]
  · intro c
    rw [gpc_false_eq_filter, List.mem_filter]
    constructor
    · rintro ⟨hmem, hpl⟩
      exact ⟨hmem, (card_playable_iff board c (hranks c hmem) hwf).mp hpl⟩
    · rintro ⟨hmem, hcond⟩
      exact ⟨hmem, (card_playable_iff board c (hranks c hmem) hwf).mpr hcond⟩

/-- Witness for C2 at a concrete board and hand. -/
theorem c2_witness :
    get_playable_cards freshBoard wPlayerA.hand true =
      if (⟨"7", "hearts"⟩ : Card) ∈ wPlayerA.hand then [⟨"7", "hearts"⟩] else [] :=
  (c2_legal_moves freshBoard wPlayerA.hand (by decide) (by decide)).1

/-! ## Exhaustive case analysis of the two state-mutating operations -/

/-- Complete branch-by-branch characterization of `play_card_logic` for an
in-bounds current-turn index: exactly one of the eleven program paths is
taken, and the lemma records the exact result of each. -/
theorem play_spec (gs : GameState) (pid : String) (card : Card)
    (hidx : gs.current_player_index < gs.players.length) :
    ((current_player gs).id ≠ pid ∧
      play_card_logic gs pid card = ⟨some (PyErr.valueError "Not your turn"), gs⟩) ∨
    ((current_player gs).id = pid ∧ CARD_RANKS card.rank = none ∧
      play_card_logic gs pid card = ⟨some (PyErr.keyError card.rank), gs⟩) ∨
    ((current_player gs).id = pid ∧ (CARD_RANKS card.rank).isSome ∧
      (current_player gs).hand.any (card_match card) = false ∧
      play_card_logic gs pid card =
        ⟨some (PyErr.valueError "You don't have this card"), gs⟩) ∨
    ((current_player gs).id = pid ∧ (CARD_RANKS card.rank).isSome ∧
      (current_player gs).hand.any (card_match card) = true ∧
      gs.board.bget card.suit = none ∧
      play_card_logic gs pid card =
        ⟨some (PyErr.keyError card.suit), gs_after_removal gs card⟩) ∨
    (∃ s, (current_player gs).id = pid ∧ (CARD_RANKS card.rank).isSome ∧
      (current_player gs).hand.any (card_match card) = true ∧
      gs.board.bget card.suit = some s ∧ card.rank = "7" ∧ s.has_seven = true ∧
      play_card_logic gs pid card =
        ⟨some (PyErr.valueError "7 already played for this suit"),
         gs_after_removal gs card⟩) ∨
    (∃ s, (current_player gs).id = pid ∧ (CARD_RANKS card.rank).isSome ∧
      (current_player gs).hand.any (card_match card) = true ∧
      gs.board.bget card.suit = some s ∧ card.rank = "7" ∧ s.has_seven = false ∧
      play_card_logic gs pid card =
        play_finish card gs.current_player_index gs.players.length
          (player_after_removal gs card) (gs_after_removal gs card)
          (gs.board.bset card.suit ⟨some 7, some 7, true, s.cards ++ [card]⟩)) ∨
    (∃ s, (current_player gs).id = pid ∧ (CARD_RANKS card.rank).isSome ∧
      (current_player gs).hand.any (card_match card) = true ∧
      gs.board.bget card.suit = some s ∧ card.rank ≠ "7" ∧ s.has_seven = false ∧
      play_card_logic gs pid card =
        ⟨some (PyErr.valueError "Must play 7 first for this suit"),
         gs_after_removal gs card⟩) ∨
    (∃ s ri lo hi, (current_player gs).id = pid ∧
      CARD_RANKS card.rank = some ri ∧
      (current_player gs).hand.any (card_match card) = true ∧
      gs.board.bget card.suit = some s ∧ card.rank ≠ "7" ∧ s.has_seven = true ∧
      s.low = some lo ∧ s.high = some hi ∧ ri.value = lo - 1 ∧
      play_card_logic gs pid card =
        play_finish card gs.current_player_index gs.players.length
          (player_after_removal gs card) (gs_after_removal gs card)
          (gs.board.bset card.suit ⟨some ri.value, some hi, true, s.cards ++ [card]⟩)) ∨
    (∃ s ri lo hi, (current_player gs).id = pid ∧
      CARD_RANKS card.rank = some ri ∧
      (current_player gs).hand.any (card_match card) = true ∧
      gs.board.bget card.suit = some s ∧ card.rank ≠ "7" ∧ s.has_seven = true ∧
      s.low = some lo ∧ s.high = some hi ∧ ri.value ≠ lo - 1 ∧ ri.value = hi + 1 ∧
      play_card_logic gs pid card =
        play_finish card gs.current_player_index gs.players.length
          (player_after_removal gs card) (gs_after_removal gs card)
          (gs.board.bset card.suit ⟨some lo, some ri.value, true, s.cards ++ [card]⟩)) ∨
    (∃ s ri lo hi, (current_player gs).id = pid ∧
      CARD_RANKS card.rank = some ri ∧
      (current_player gs).hand.any (card_match card) = true ∧
      gs.board.bget card.suit = some s ∧ card.rank ≠ "7" ∧ s.has_seven = true ∧
      s.low = some lo ∧ s.high = some hi ∧ ri.value ≠ lo - 1 ∧ ri.value ≠ hi + 1 ∧
      play_card_logic gs pid card =
        ⟨some (PyErr.valueError "Invalid play - card must extend the sequence"),
         gs_after_removal gs card⟩) ∨
    (∃ s, (current_player gs).id = pid ∧ (CARD_RANKS card.rank).isSome ∧
      (current_player gs).hand.any (card_match card) = true ∧
      gs.board.bget card.suit = some s ∧ card.rank ≠ "7" ∧ s.has_seven = true ∧
      (s.low = none ∨ s.high = none) ∧
      play_card_logic gs pid card = ⟨some PyErr.typeError, gs_after_removal gs card⟩) := by
  have hid : gs.players.getD gs.current_player_index dummyPlayer = current_player gs := rfl
  by_cases h1 : (current_player gs).id = pid
  case neg =>
    refine Or.inl ⟨h1, ?_⟩
    unfold play_card_logic
    rw [if_pos hidx, hid, if_pos h1]
  case pos =>
    cases hR : CARD_RANKS card.rank with
    | none =>
      refine Or.inr (Or.inl ⟨h1, rfl, ?_⟩)
      unfold play_card_logic
      rw [if_pos hidx, hid, if_neg (not_not_intro h1), hR]
    | some ri =>
      by_cases hin : (current_player gs).hand.any (card_match card) = true
      case neg =>
        refine Or.inr (Or.inr (Or.inl ⟨h1, rfl, by simpa using hin, ?_⟩))
        unfold play_card_logic
        rw [if_pos hidx, hid, if_neg (not_not_intro h1), hR]
        dsimp only
        rw [if_neg hin]
      case pos =>
        cases hb : gs.board.bget card.suit with
        | none =>
          refine Or.inr (Or.inr (Or.inr (Or.inl ⟨h1, rfl, hin, rfl, ?_⟩)))
          unfold play_card_logic
          rw [if_pos hidx, hid, if_neg (not_not_intro h1), hR]
          dsimp only
          rw [if_pos hin, hb]
          rfl
        | some s =>
          by_cases h7 : card.rank = "7"
          · cases hs : s.has_seven with
            | true =>
              refine (Or.inr (Or.inr (Or.inr (Or.inr (Or.inl
                ⟨s, h1, rfl, hin, rfl, h7, hs, ?_⟩)))))
              unfold play_card_logic
              rw [if_pos hidx, hid, if_neg (not_not_intro h1), hR]
              dsimp only
              rw [if_pos hin, hb]
              dsimp only
              rw [if_pos h7, if_pos hs]
              rfl
            | false =>
              refine (Or.inr (Or.inr (Or.inr (Or.inr (Or.inr (Or.inl
                ⟨s, h1, rfl, hin, rfl, h7, hs, ?_⟩))))))
              unfold play_card_logic
              rw [if_pos hidx, hid, if_neg (not_not_intro h1), hR]
              dsimp only
              rw [if_pos hin, hb]
              dsimp only
              rw [if_pos h7, if_neg (by simp [hs])]
              rfl
          · cases hs : s.has_seven with
            | false =>
              refine (Or.inr (Or.inr (Or.inr (Or.inr (Or.inr (Or.inr (Or.inl
                ⟨s, h1, rfl, hin, rfl, h7, hs, ?_⟩)))))))
              unfold play_card_logic
              rw [if_pos hidx, hid, if_neg (not_not_intro h1), hR]
              dsimp only
              rw [if_pos hin, hb]
              dsimp only
              rw [if_neg h7, if_pos (by rw [hs])]
              rfl
            | true =>
              cases hlo : s.low with
              | none =>
                refine (Or.inr (Or.inr (Or.inr (Or.inr (Or.inr (Or.inr (Or.inr (Or.inr
                  (Or.inr (Or.inr ⟨s, h1, rfl, hin, rfl, h7, hs, Or.inl hlo, ?_⟩))))))))))
                unfold play_card_logic
                rw [if_pos hidx, hid, if_neg (not_not_intro h1), hR]
                dsimp only
                rw [if_pos hin, hb]
                dsimp only
                rw [if_neg h7, if_neg (by simp [hs]), hlo]
                rfl
              | some lo =>
                cases hhi : s.high with
                | none =>
                  refine (Or.inr (Or.inr (Or.inr (Or.inr (Or.inr (Or.inr (Or.inr (Or.inr
                    (Or.inr (Or.inr ⟨s, h1, rfl, hin, rfl, h7, hs, Or.inr hhi, ?_⟩))))))))))
                  unfold play_card_logic
                  rw [if_pos hidx, hid, if_neg (not_not_intro h1), hR]
                  dsimp only
                  rw [if_pos hin, hb]
                  dsimp only
                  rw [if_neg h7, if_neg (by simp [hs]), hlo, hhi]
                  rfl
                | some hi =>
                  by_cases hv1 : ri.value = lo - 1
                  · refine (Or.inr (Or.inr (Or.inr (Or.inr (Or.inr (Or.inr (Or.inr (Or.inl
                      ⟨s, ri, lo, hi, h1, rfl, hin, rfl, h7, hs, hlo, hhi, hv1, ?_⟩))))))))
                    unfold play_card_logic
                    rw [if_pos hidx, hid, if_neg (not_not_intro h1), hR]
                    dsimp only
                    rw [if_pos hin, hb]
                    dsimp only
                    rw [if_neg h7, if_neg (by simp [hs]), hlo, hhi]
                    dsimp only
                    rw [if_pos hv1, hv1]
                    rfl
                  · by_cases hv2 : ri.value = hi + 1
                    · refine (Or.inr (Or.inr (Or.inr (Or.inr (Or.inr (Or.inr (Or.inr (Or.inr (Or.inl
                        ⟨s, ri, lo, hi, h1, rfl, hin, rfl, h7, hs, hlo, hhi, hv1, hv2, ?_⟩)))))))))
                      unfold play_card_logic
                      rw [if_pos hidx, hid, if_neg (not_not_intro h1), hR]
                      dsimp only
                      rw [if_pos hin, hb]
                      dsimp only
                      rw [if_neg h7, if_neg (by simp [hs]), hlo, hhi]
                      dsimp only
                      rw [if_neg hv1, if_pos hv2, hv2]
                      rfl
                    · refine (Or.inr (Or.inr (Or.inr (Or.inr (Or.inr (Or.inr (Or.inr (Or.inr (Or.inr (Or.inl
                        ⟨s, ri, lo, hi, h1, rfl, hin, rfl, h7, hs, hlo, hhi, hv1, hv2, ?_⟩))))))))))
                      unfold play_card_logic
                      rw [if_pos hidx, hid, if_neg (not_not_intro h1), hR]
                      dsimp only
                      rw [if_pos hin, hb]
                      dsimp only
                      rw [if_neg h7, if_neg (by simp [hs]), hlo, hhi]
                      dsimp only
                      rw [if_neg hv1, if_neg hv2]
                      rfl

/-- Complete branch-by-branch characterization of `pass_turn_logic` for an
in-bounds current-turn index. -/
theorem pass_spec (gs : GameState) (pid : String)
    (hidx : gs.current_player_index < gs.players.length) :
    ((current_player gs).id ≠ pid ∧
      pass_turn_logic gs pid = ⟨some (PyErr.valueError "Not your turn"), gs⟩) ∨
    ((current_player gs).id = pid ∧
      get_playable_cards gs.board (current_player gs).hand ≠ [] ∧
      pass_turn_logic gs pid =
        ⟨some (PyErr.valueError "You have playable cards - cannot pass"), gs⟩) ∨
    ((current_player gs).id = pid ∧
      get_playable_cards gs.board (current_player gs).hand = [] ∧
      pass_turn_logic gs pid =
        ⟨none, { gs with
                  current_player_index :=
                    (gs.current_player_index + 1) % gs.players.length
                  turn_number := gs.turn_number + 1
                  last_action := (current_player gs).name ++ " passed" }⟩) := by
  have hid : gs.players.getD gs.current_player_index dummyPlayer = current_player gs := rfl
  by_cases h1 : (current_player gs).id = pid
  case neg =>
    refine Or.inl ⟨h1, ?_⟩
    unfold pass_turn_logic
    rw [if_pos hidx, hid, if_pos h1]
  case pos =>
    by_cases hp : get_playable_cards gs.board (current_player gs).hand = []
    · refine Or.inr (Or.inr ⟨h1, hp, ?_⟩)
      unfold pass_turn_logic
      rw [if_pos hidx, hid, if_neg (not_not_intro h1)]
      dsimp only
      rw [if_neg (by rw [hp]; simp)]
    · refine Or.inr (Or.inl ⟨h1, hp, ?_⟩)
      unfold pass_turn_logic
      rw [if_pos hidx, hid, if_neg (not_not_intro h1)]
      dsimp only
      rw [if_pos (by simpa [List.length_pos] using hp)]

/-- The epilogue never raises. -/
theorem play_finish_err (card : Card) (i n : Nat) (p2 : Player) (gs1 : GameState)
    (b2 : Board) : (play_finish card i n p2 gs1 b2).err = none := by
  unfold play_finish
  split_ifs <;> rfl

/-- Epilogue on an emptied hand: winner set, pointer and counter frozen. -/
theorem play_finish_win (card : Card) (i n : Nat) (p2 : Player) (gs1 : GameState)
    (b2 : Board) (h : p2.hand.length = 0) :
    play_finish card i n p2 gs1 b2 =
      ⟨none, { gs1 with
                board := b2
                winner := some p2.id
                last_action := p2.name ++ " wins!" }⟩ := by
  unfold play_finish
  rw [if_pos h]

/-- Epilogue on a non-empty hand: round-robin advance, counter increment. -/
theorem play_finish_advance (card : Card) (i n : Nat) (p2 : Player)
    (gs1 : GameState) (b2 : Board) (h : p2.hand.length ≠ 0) :
    play_finish card i n p2 gs1 b2 =
      ⟨none, { gs1 with
                board := b2
                current_player_index := (i + 1) % n
                turn_number := gs1.turn_number + 1
                last_action := p2.name ++ " played " ++ card.rank ++
                  " of " ++ ((SUIT_COLORS card.suit).getD default).name }⟩ := by
  unfold play_finish
  rw [if_neg h]

/-! ## C1: board rejections happen after the hand removal -/

/-- C1: when the acting player is the current player and holds the card but
the play is rejected against the board (anchor already played, anchor not
yet played, or not a one-step extension), the board, the current-turn
pointer and the turn counter are exactly as before the call, while the
players list already carries the hand with the submitted card removed. -/
theorem c1_reject_keeps_board_after_removal (gs : GameState) (pid : String)
    (card : Card) (msg : String)
    (hidx : gs.current_player_index < gs.players.length)
    (hpid : (current_player gs).id = pid)
    (hin : (current_player gs).hand.any (card_match card) = true)
    (herr : (play_card_logic gs pid card).err = some (PyErr.valueError msg))
    (hmsg : msg = "7 already played for this suit" ∨
            msg = "Must play 7 first for this suit" ∨
            msg = "Invalid play - card must extend the sequence") :
    (play_card_logic gs pid card).state.board = gs.board ∧
    (play_card_logic gs pid card).state.current_player_index =
      gs.current_player_index ∧
    (play_card_logic gs pid card).state.turn_number = gs.turn_number ∧
    (play_card_logic gs pid card).state.players =
      gs.players.set gs.current_player_index (player_after_removal gs card) := by
  clear hmsg
  rcases play_spec gs pid card hidx with
    ⟨h, hres⟩ | ⟨h, hR, hres⟩ | ⟨h, hR, hany, hres⟩ | ⟨h, hR, hany, hb, hres⟩ |
    ⟨s, h, hR, hany, hb, h7, hs, hres⟩ | ⟨s, h, hR, hany, hb, h7, hs, hres⟩ |
    ⟨s, h, hR, hany, hb, h7, hs, hres⟩ |
    ⟨s, ri, lo, hi, h, hR, hany, hb, h7, hs, hlo, hhi, hv, hres⟩ |
    ⟨s, ri, lo, hi, h, hR, hany, hb, h7, hs, hlo, hhi, hv1, hv2, hres⟩ |
    ⟨s, ri, lo, hi, h, hR, hany, hb, h7, hs, hlo, hhi, hv1, hv2, hres⟩ |
    ⟨s, h, hR, hany, hb, h7, hs, hun, hres⟩
  · exact absurd hpid h
  · rw [hres] at herr; simp at herr
  · rw [hany] at hin; exact absurd hin (by simp)
  · rw [hres] at herr; simp at herr
  · rw [hres]; exact ⟨rfl, rfl, rfl, rfl⟩
  · rw [hres, play_finish_err] at herr; simp at herr
  · rw [hres]; exact ⟨rfl, rfl, rfl, rfl⟩
  · rw [hres, play_finish_err] at herr; simp at herr
  · rw [hres, play_finish_err] at herr; simp at herr
  · rw [hres]; exact ⟨rfl, rfl, rfl, rfl⟩
  · rw [hres] at herr; simp at herr

/-- Witness for C1: on a fresh board, playing the held 9 of hearts is
rejected with the anchor-not-played error, the board and turn data are
unchanged, and the 9 of hearts is already gone from the hand. -/
theorem c1_witness :
    (play_card_logic wgs0 "a" ⟨"9", "hearts"⟩).state.board = wgs0.board ∧
    (play_card_logic wgs0 "a" ⟨"9", "hearts"⟩).state.current_player_index =
      wgs0.current_player_index ∧
    (play_card_logic wgs0 "a" ⟨"9", "hearts"⟩).state.turn_number =
      wgs0.turn_number ∧
    (play_card_logic wgs0 "a" ⟨"9", "hearts"⟩).state.players =
      wgs0.players.set wgs0.current_player_index
        (player_after_removal wgs0 ⟨"9", "hearts"⟩) :=
  c1_reject_keeps_board_after_removal wgs0 "a" ⟨"9", "hearts"⟩
    "Must play 7 first for this suit" (by decide) rfl (by decide) (by decide)
    (Or.inr (Or.inl rfl))

/-! ## C6: round-robin advance and winning-move freeze -/

/-- C6: a successful play that leaves the acting player with cards, and any
successful pass, advance the current-turn pointer to
`(previous + 1) % player-count` and increment the turn counter by one; a
successful play that empties the hand sets `winner` to the acting player's
id and leaves both the pointer and the counter unchanged. -/
theorem c6_turn_advance (gs : GameState) (pid : String) (card : Card)
    (hidx : gs.current_player_index < gs.players.length) :
    ((play_card_logic gs pid card).err = none →
      ((player_after_removal gs card).hand.length ≠ 0 →
        (play_card_logic gs pid card).state.current_player_index =
          (gs.current_player_index + 1) % gs.players.length ∧
        (play_card_logic gs pid card).state.turn_number = gs.turn_number + 1 ∧
        (play_card_logic gs pid card).state.winner = gs.winner) ∧
      ((player_after_removal gs card).hand.length = 0 →
        (play_card_logic gs pid card).state.winner =
          some (current_player gs).id ∧
        (play_card_logic gs pid card).state.current_player_index =
          gs.current_player_index ∧
        (play_card_logic gs pid card).state.turn_number = gs.turn_number)) ∧
    ((pass_turn_logic gs pid).err = none →
      (pass_turn_logic gs pid).state.current_player_index =
        (gs.current_player_index + 1) % gs.players.length ∧
      (pass_turn_logic gs pid).state.turn_number = gs.turn_number + 1) := by
  constructor
  · intro herr
    rcases play_spec gs pid card hidx with
      ⟨h, hres⟩ | ⟨h, hR, hres⟩ | ⟨h, hR, hany, hres⟩ | ⟨h, hR, hany, hb, hres⟩ |
      ⟨s, h, hR, hany, hb, h7, hs, hres⟩ | ⟨s, h, hR, hany, hb, h7, hs, hres⟩ |
      ⟨s, h, hR, hany, hb, h7, hs, hres⟩ |
      ⟨s, ri, lo, hi, h, hR, hany, hb, h7, hs, hlo, hhi, hv, hres⟩ |
      ⟨s, ri, lo, hi, h, hR, hany, hb, h7, hs, hlo, hhi, hv1, hv2, hres⟩ |
      ⟨s, ri, lo, hi, h, hR, hany, hb, h7, hs, hlo, hhi, hv1, hv2, hres⟩ |
      ⟨s, h, hR, hany, hb, h7, hs, hun, hres⟩
    · rw [hres] at herr; simp at herr
    · rw [hres] at herr; simp at herr
    · rw [hres] at herr; simp at herr
    · rw [hres] at herr; simp at herr
    · rw [hres] at herr; simp at herr
    · constructor
      · intro hne
        rw [hres, play_finish_advance _ _ _ _ _ _ hne]
        exact ⟨rfl, rfl, rfl⟩
      · intro hz
        rw [hres, play_finish_win _ _ _ _ _ _ hz]
        exact ⟨rfl, rfl, rfl⟩
    · rw [hres] at herr; simp at herr
    · constructor
      · intro hne
        rw [hres, play_finish_advance _ _ _ _ _ _ hne]
        exact ⟨rfl, rfl, rfl⟩
      · intro hz
        rw [hres, play_finish_win _ _ _ _ _ _ hz]
        exact ⟨rfl, rfl, rfl⟩
    · constructor
      · intro hne
        rw [hres, play_finish_advance _ _ _ _ _ _ hne]
        exact ⟨rfl, rfl, rfl⟩
      · intro hz
        rw [hres, play_finish_win _ _ _ _ _ _ hz]
        exact ⟨rfl, rfl, rfl⟩
    · rw [hres] at herr; simp at herr
    · rw [hres] at herr; simp at herr
  · intro herr
    rcases pass_spec gs pid hidx with
      ⟨h, hres⟩ | ⟨h, hp, hres⟩ | ⟨h, hp, hres⟩
    · rw [hres] at herr; simp at herr
    · rw [hres] at herr; simp at herr
    · rw [hres]; exact ⟨rfl, rfl⟩

/-- Witness for C6: Alice plays 7♥ (keeping 9♥) in the concrete fixture:
the pointer moves to seat 1 and the counter to 2; Bob then has no playable
card on a fresh board variant and passes, advancing likewise. -/
theorem c6_witness :
    ((play_card_logic wgs0 "a" ⟨"7", "hearts"⟩).state.current_player_index =
        (wgs0.current_player_index + 1) % wgs0.players.length ∧
      (play_card_logic wgs0 "a" ⟨"7", "hearts"⟩).state.turn_number =
        wgs0.turn_number + 1 ∧
      (play_card_logic wgs0 "a" ⟨"7", "hearts"⟩).state.winner = wgs0.winner) :=
  ((c6_turn_advance wgs0 "a" ⟨"7", "hearts"⟩ (by decide)).1 (by decide)).1
    (by decide)

/-! ## Additional fixtures for counterexamples -/

/-- Carol holds only the 7 of spades. -/
def wPlayerC : Player := ⟨"c", "Carol", true, false, [⟨"7", "spades"⟩]⟩

/-- Turn 1, fresh board, Carol (no 7 of hearts) to move. -/
def wgsOpen : GameState := ⟨freshBoard, 0, [wPlayerC, wPlayerB], none, "", 1⟩

/-- Dana holds the 7 of spades and the 7 of hearts. -/
def wPlayerD : Player := ⟨"d", "Dana", true, false, [⟨"7", "spades"⟩, ⟨"7", "hearts"⟩]⟩

/-- Turn 1, fresh board, Dana to move. -/
def wgsOpen2 : GameState := ⟨freshBoard, 0, [wPlayerD, wPlayerB], none, "", 1⟩

/-- Wynn has emptied their hand and won. -/
def wPlayerW : Player := ⟨"w", "Wynn", true, false, []⟩

/-- A finished state: `winner` is set to Wynn, who is still the player at
the current-turn pointer, with an empty hand. -/
def wgsWin : GameState :=
  ⟨⟨⟨some 6, some 8, true,
      [⟨"7", "hearts"⟩, ⟨"8", "hearts"⟩, ⟨"6", "hearts"⟩]⟩,
    defaultSuitState, defaultSuitState, defaultSuitState⟩,
   0, [wPlayerW, wPlayerB], some "w", "Wynn wins!", 5⟩

/-! ## C5: pass succeeds iff no playable card — without the opening flag -/

/-- C5 counterexample: on turn 1 with a fresh board and a current player
whose hand is exactly the 7 of spades, `legal_moves` with the opening flag
(derived from turn counter = 1, as the claim reads) is empty, yet
`pass_turn_logic` rejects the pass: the code never passes the opening flag
to `get_playable_cards`. -/
theorem c5_counterexample :
    wgsOpen.turn_number = 1 ∧
    get_playable_cards wgsOpen.board (current_player wgsOpen).hand true = [] ∧
    (pass_turn_logic wgsOpen "c").err =
      some (PyErr.valueError "You have playable cards - cannot pass") := by
  decide

/-- C5 as amended: `pass_turn_logic` succeeds iff
`get_playable_cards(board, hand)` with the *default* (false) opening flag
is empty — the opening flag is never derived from the turn counter; on
success the board is untouched, the pointer advances round-robin and the
counter is incremented. -/
theorem c5_amended_forced_pass (gs : GameState) (pid : String)
    (hidx : gs.current_player_index < gs.players.length)
    (hpid : (current_player gs).id = pid) :
    ((pass_turn_logic gs pid).err = none ↔
      get_playable_cards gs.board (current_player gs).hand = []) ∧
    ((pass_turn_logic gs pid).err = none →
      (pass_turn_logic gs pid).state.board = gs.board ∧
      (pass_turn_logic gs pid).state.current_player_index =
        (gs.current_player_index + 1) % gs.players.length ∧
      (pass_turn_logic gs pid).state.turn_number = gs.turn_number + 1) := by
  rcases pass_spec gs pid hidx with
    ⟨h, hres⟩ | ⟨h, hp, hres⟩ | ⟨h, hp, hres⟩
  · exact absurd hpid h
  · rw [hres]
    constructor
    · constructor
      · intro hc; simp at hc
      · intro hc; exact absurd hc hp
    · intro hc; simp at hc
  · rw [hres]
    exact ⟨⟨fun _ => hp, fun _ => rfl⟩, fun _ => ⟨rfl, rfl, rfl⟩⟩

/-- Witness for the amended C5: Bob, holding 6♥ and 8♥ on a fresh board,
has no playable card and his pass succeeds. -/
theorem c5_witness :
    (pass_turn_logic ⟨freshBoard, 0, [wPlayerB, wPlayerA], none, "", 3⟩ "b").err =
      none :=
  (c5_amended_forced_pass ⟨freshBoard, 0, [wPlayerB, wPlayerA], none, "", 3⟩ "b"
      (by decide) rfl).1.mpr (by decide)

/-! ## C4: the opening move is not restricted by play_card_logic -/

/-- C4 counterexample: on turn 1 Dana, the current player, holds the
7 of spades (not the 7 of hearts) and `play_card_logic` accepts it. -/
theorem c4_counterexample :
    wgsOpen2.turn_number = 1 ∧
    (⟨"7", "spades"⟩ : Card) ≠ (⟨"7", "hearts"⟩ : Card) ∧
    (current_player wgsOpen2).hand.any (card_match ⟨"7", "spades"⟩) = true ∧
    (play_card_logic wgsOpen2 "d" ⟨"7", "spades"⟩).err = none := by
  decide

/-- C4 as amended: `play_card_logic` never re-derives the opening-move
flag; on turn 1 (as on any turn) it accepts any 7 held by the current
player whose suit's anchor is not yet on the board — the 7-of-hearts-only
opening rule lives solely in `get_playable_cards`. -/
theorem c4_amended_no_opening_check (gs : GameState) (pid : String) (card : Card)
    (s : SuitState)
    (hturn : gs.turn_number = 1)
    (hidx : gs.current_player_index < gs.players.length)
    (hpid : (current_player gs).id = pid)
    (hin : (current_player gs).hand.any (card_match card) = true)
    (h7 : card.rank = "7")
    (hb : gs.board.bget card.suit = some s)
    (hs : s.has_seven = false) :
    (play_card_logic gs pid card).err = none := by
  clear hturn
  rcases play_spec gs pid card hidx with
    ⟨h, hres⟩ | ⟨h, hR, hres⟩ | ⟨h, hR, hany, hres⟩ | ⟨h, hR, hany, hb2, hres⟩ |
    ⟨s2, h, hR, hany, hb2, h72, hs2, hres⟩ | ⟨s2, h, hR, hany, hb2, h72, hs2, hres⟩ |
    ⟨s2, h, hR, hany, hb2, h72, hs2, hres⟩ |
    ⟨s2, ri, lo, hi, h, hR, hany, hb2, h72, hs2, hlo, hhi, hv, hres⟩ |
    ⟨s2, ri, lo, hi, h, hR, hany, hb2, h72, hs2, hlo, hhi, hv1, hv2, hres⟩ |
    ⟨s2, ri, lo, hi, h, hR, hany, hb2, h72, hs2, hlo, hhi, hv1, hv2, hres⟩ |
    ⟨s2, h, hR, hany, hb2, h72, hs2, hun, hres⟩
  · exact absurd hpid h
  · rw [h7] at hR; simp [CARD_RANKS] at hR
  · rw [hin] at hany; exact absurd hany (by simp)
  · rw [hb] at hb2; simp at hb2
  · rw [hb] at hb2; injection hb2 with hb2; rw [← hb2] at hs2
    rw [hs] at hs2; exact absurd hs2 (by simp)
  · rw [hres, play_finish_err]
  · exact absurd h7 h72
  · exact absurd h7 h72
  · exact absurd h7 h72
  · exact absurd h7 h72
  · exact absurd h7 h72

/-- Witness for the amended C4: Dana's 7 of spades on turn 1 goes through. -/
theorem c4_witness : (play_card_logic wgsOpen2 "d" ⟨"7", "spades"⟩).err = none :=
  c4_amended_no_opening_check wgsOpen2 "d" ⟨"7", "spades"⟩
    wgsOpen2.board.spades rfl (by decide) rfl (by decide) rfl rfl rfl

/-! ## C3: the finished state is not terminal for pass_turn_logic -/

/-- C3 counterexample: in a finished state (winner set, winner still at the
current-turn pointer with an empty hand), the winner's pass *succeeds* and
mutates the state — `pass_turn_logic` never checks `winner`, the winner's
empty hand has no playable cards, and the turn pointer and counter move. -/
theorem c3_counterexample :
    wgsWin.winner = some "w" ∧
    (pass_turn_logic wgsWin "w").err = none ∧
    (pass_turn_logic wgsWin "w").state ≠ wgsWin ∧
    (pass_turn_logic wgsWin "w").state.current_player_index = 1 ∧
    (pass_turn_logic wgsWin "w").state.turn_number = 6 := by
  decide

/-- C3 as amended: in a finished state (winner set; the winner is the
player at the frozen current-turn pointer and their hand is empty), every
`play_card_logic` call by any player with any card fails and leaves the
state unchanged, and every `pass_turn_logic` call by a player other than
the winner fails and leaves the state unchanged; but the winner's own pass
succeeds, advancing the pointer and the counter while `winner` stays set —
terminality of the finished state is enforced only by the HTTP layer's
room-status check, not by the logic functions. -/
theorem c3_amended_finished_state (gs : GameState) (w : String)
    (hwin : gs.winner = some w)
    (hidx : gs.current_player_index < gs.players.length)
    (hcur : (current_player gs).id = w)
    (hhand : (current_player gs).hand = []) :
    (∀ pid card, (play_card_logic gs pid card).err ≠ none ∧
      (play_card_logic gs pid card).state = gs) ∧
    (∀ pid, pid ≠ w → (pass_turn_logic gs pid).err ≠ none ∧
      (pass_turn_logic gs pid).state = gs) ∧
    ((pass_turn_logic gs w).err = none ∧
      (pass_turn_logic gs w).state.winner = some w ∧
      (pass_turn_logic gs w).state.current_player_index =
        (gs.current_player_index + 1) % gs.players.length ∧
      (pass_turn_logic gs w).state.turn_number = gs.turn_number + 1) := by
  have hany : ∀ card : Card, (current_player gs).hand.any (card_match card) = false := by
    intro card; rw [hhand]; rfl
  refine ⟨?_, ?_, ?_⟩
  · intro pid card
    rcases play_spec gs pid card hidx with
      ⟨h, hres⟩ | ⟨h, hR, hres⟩ | ⟨h, hR, ha, hres⟩ | ⟨h, hR, ha, hb, hres⟩ |
      ⟨s, h, hR, ha, hb, h7, hs, hres⟩ | ⟨s, h, hR, ha, hb, h7, hs, hres⟩ |
      ⟨s, h, hR, ha, hb, h7, hs, hres⟩ |
      ⟨s, ri, lo, hi, h, hR, ha, hb, h7, hs, hlo, hhi, hv, hres⟩ |
      ⟨s, ri, lo, hi, h, hR, ha, hb, h7, hs, hlo, hhi, hv1, hv2, hres⟩ |
      ⟨s, ri, lo, hi, h, hR, ha, hb, h7, hs, hlo, hhi, hv1, hv2, hres⟩ |
      ⟨s, h, hR, ha, hb, h7, hs, hun, hres⟩
    · rw [hres]; exact ⟨by simp, rfl⟩
    · rw [hres]; exact ⟨by simp, rfl⟩
    · rw [hres]; exact ⟨by simp, rfl⟩
    all_goals (rw [hany card] at ha; exact absurd ha (by simp))
  · intro pid hpid
    rcases pass_spec gs pid hidx with
      ⟨h, hres⟩ | ⟨h, hp, hres⟩ | ⟨h, hp, hres⟩
    · rw [hres]; exact ⟨by simp, rfl⟩
    · exact absurd (h.symm.trans hcur) hpid
    · exact absurd (h.symm.trans hcur) hpid
  · rcases pass_spec gs w hidx with
      ⟨h, hres⟩ | ⟨h, hp, hres⟩ | ⟨h, hp, hres⟩
    · exact absurd hcur h
    · rw [hhand] at hp
      exact absurd rfl hp
    · rw [hres]
      exact ⟨rfl, hwin, rfl, rfl⟩

/-- Witness for the amended C3 at the concrete finished state. -/
theorem c3_witness :
    (play_card_logic wgsWin "b" ⟨"6", "hearts"⟩).state = wgsWin ∧
    (pass_turn_logic wgsWin "w").err = none :=
  ⟨((c3_amended_finished_state wgsWin "w" rfl (by decide) rfl rfl).1
      "b" ⟨"6", "hearts"⟩).2,
   (c3_amended_finished_state wgsWin "w" rfl (by decide) rfl rfl).2.2.1⟩

/-! ## C7: the SuitRun invariant -/

/-- The SuitRun invariant for one suit: while the anchor is not played the
extremes are unset and no cards are recorded; once played, both extremes
are set. -/
def SuitInv (s : SuitState) : Prop :=
  (s.has_seven = false → s.low = none ∧ s.high = none ∧ s.cards = []) ∧
  (s.has_seven = true → s.low.isSome ∧ s.high.isSome)

/-- The SuitRun invariant for all four suits. -/
def BoardInv (b : Board) : Prop :=
  SuitInv b.hearts ∧ SuitInv b.spades ∧ SuitInv b.diamonds ∧ SuitInv b.clubs

/-- One engine operation, successful or not: the state as left by a
`play_card_logic` or `pass_turn_logic` call. -/
inductive Step : GameState → GameState → Prop
  | play (gs : GameState) (pid : String) (card : Card) :
      Step gs (play_card_logic gs pid card).state
  | pass (gs : GameState) (pid : String) :
      Step gs (pass_turn_logic gs pid).state

/-- States reachable from some freshly initialized game through engine
operations. -/
inductive Reachable : GameState → Prop
  | init (players : List Player) (deck : List Card) :
      Reachable (initialize_game_state players deck)
  | step (gs gs2 : GameState) (h : Reachable gs) (hs : Step gs gs2) :
      Reachable gs2

/-- An opened suit state satisfies the invariant. -/
theorem suitinv_opened (lo hi : Int) (cards : List Card) :
    SuitInv ⟨some lo, some hi, true, cards⟩ :=
  ⟨fun h => by simp at h, fun _ => ⟨rfl, rfl⟩⟩

/-- The untouched suit state satisfies the invariant. -/
theorem suitinv_default : SuitInv defaultSuitState :=
  ⟨fun _ => ⟨rfl, rfl, rfl⟩, fun h => by simp [defaultSuitState] at h⟩

/-- The fresh board satisfies the invariant. -/
theorem boardinv_fresh : BoardInv freshBoard :=
  ⟨suitinv_default, suitinv_default, suitinv_default, suitinv_default⟩

/-- `bset` with an invariant-satisfying suit state preserves the board
invariant. -/
theorem boardinv_bset (b : Board) (name : String) (st : SuitState)
    (hinv : BoardInv b) (hst : SuitInv st) : BoardInv (b.bset name st) := by
  unfold Board.bset
  split_ifs <;>
    first
      | exact ⟨hst, hinv.2.1, hinv.2.2.1, hinv.2.2.2⟩
      | exact ⟨hinv.1, hst, hinv.2.2.1, hinv.2.2.2⟩
      | exact ⟨hinv.1, hinv.2.1, hst, hinv.2.2.2⟩
      | exact ⟨hinv.1, hinv.2.1, hinv.2.2.1, hst⟩
      | exact hinv

/-- Any suit state read off an invariant board satisfies the suit
invariant. -/
theorem boardinv_bget (b : Board) (name : String) (s : SuitState)
    (hinv : BoardInv b) (h : b.bget name = some s) : SuitInv s := by
  unfold Board.bget at h
  split_ifs at h <;> (injection h with h; rw [← h]) <;>
    first
      | exact hinv.1
      | exact hinv.2.1
      | exact hinv.2.2.1
      | exact hinv.2.2.2

/-- Updating a suit present on the board makes `bget` return the update. -/
theorem bget_bset_same (b : Board) (name : String) (st s : SuitState)
    (h : b.bget name = some s) : (b.bset name st).bget name = some st := by
  unfold Board.bget Board.bset at *
  split_ifs at h ⊢ <;> simp_all

/-- Updating one suit leaves every other suit lookup unchanged. -/
theorem bget_bset_other (b : Board) (name : String) (st : SuitState)
    (name2 : String) (h : name2 ≠ name) :
    (b.bset name st).bget name2 = b.bget name2 := by
  unfold Board.bget Board.bset
  split_ifs <;> simp_all

/-- The epilogue installs exactly the board it is given. -/
theorem play_finish_board (card : Card) (i n : Nat) (p2 : Player)
    (gs1 : GameState) (b2 : Board) :
    (play_finish card i n p2 gs1 b2).state.board = b2 := by
  unfold play_finish
  split_ifs <;> rfl

/-- A pass never changes the board, successful or not. -/
theorem pass_board (gs : GameState) (pid : String) :
    (pass_turn_logic gs pid).state.board = gs.board := by
  unfold pass_turn_logic
  dsimp only
  split_ifs <;> rfl

/-- `play_card_logic` preserves the board invariant in every branch. -/
theorem play_preserves_boardinv (gs : GameState) (pid : String) (card : Card)
    (hinv : BoardInv gs.board) :
    BoardInv (play_card_logic gs pid card).state.board := by
  by_cases hidx : gs.current_player_index < gs.players.length
  case neg =>
    unfold play_card_logic
    rw [if_neg hidx]
    exact hinv
  case pos =>
    rcases play_spec gs pid card hidx with
      ⟨h, hres⟩ | ⟨h, hR, hres⟩ | ⟨h, hR, ha, hres⟩ | ⟨h, hR, ha, hb, hres⟩ |
      ⟨s, h, hR, ha, hb, h7, hs, hres⟩ | ⟨s, h, hR, ha, hb, h7, hs, hres⟩ |
      ⟨s, h, hR, ha, hb, h7, hs, hres⟩ |
      ⟨s, ri, lo, hi, h, hR, ha, hb, h7, hs, hlo, hhi, hv, hres⟩ |
      ⟨s, ri, lo, hi, h, hR, ha, hb, h7, hs, hlo, hhi, hv1, hv2, hres⟩ |
      ⟨s, ri, lo, hi, h, hR, ha, hb, h7, hs, hlo, hhi, hv1, hv2, hres⟩ |
      ⟨s, h, hR, ha, hb, h7, hs, hun, hres⟩ <;>
      rw [hres] <;>
      first
        | exact hinv
        | (rw [play_finish_board]; exact boardinv_bset _ _ _ hinv (suitinv_opened _ _ _))

/-- The board left by any (even failed) engine operation still satisfies
the invariant. -/
theorem step_preserves_boardinv (gs gs2 : GameState) (hs : Step gs gs2)
    (hinv : BoardInv gs.board) : BoardInv gs2.board := by
  cases hs with
  | play pid card => exact play_preserves_boardinv gs pid card hinv
  | pass pid => rw [pass_board]; exact hinv

/-- Every reachable state satisfies the board invariant. -/
theorem reachable_boardinv (gs : GameState) (hr : Reachable gs) :
    BoardInv gs.board := by
  induction hr with
  | init players deck => exact boardinv_fresh
  | step gs gs2 h hs ih => exact step_preserves_boardinv gs gs2 hs ih

/-- C7: in every reachable state the SuitRun invariant holds (anchor not
played ⇒ extremes unset and no cards), and it is preserved by every
operation: a pass never touches the board; a failed play leaves the board
unchanged; a successful play touches only the played card's suit, appends
the card, and either opens the run with both extremes at 7 (anchor play,
from a state with unset extremes and no cards) or moves exactly one
extreme by exactly one step outward (non-anchor play) — so `low` is
non-increasing and `high` non-decreasing over the life of the game. -/
theorem c7_suitrun_invariant (gs : GameState) (hr : Reachable gs) :
    BoardInv gs.board ∧
    (∀ pid, (pass_turn_logic gs pid).state.board = gs.board) ∧
    (∀ pid card,
      BoardInv (play_card_logic gs pid card).state.board ∧
      ((play_card_logic gs pid card).err.isSome →
        (play_card_logic gs pid card).state.board = gs.board) ∧
      ((play_card_logic gs pid card).err = none →
        ∃ s s2, gs.board.bget card.suit = some s ∧
          (play_card_logic gs pid card).state.board.bget card.suit = some s2 ∧
          (∀ name, name ≠ card.suit →
            (play_card_logic gs pid card).state.board.bget name =
              gs.board.bget name) ∧
          s2.has_seven = true ∧ s2.cards = s.cards ++ [card] ∧
          ((card.rank = "7" ∧ s.has_seven = false ∧ s.low = none ∧
            s.high = none ∧ s.cards = [] ∧ s2.low = some 7 ∧
            s2.high = some 7) ∨
           (card.rank ≠ "7" ∧ s.has_seven = true ∧
            ∃ lo hi, s.low = some lo ∧ s.high = some hi ∧
              ((s2.low = some (lo - 1) ∧ s2.high = some hi) ∨
               (s2.low = some lo ∧ s2.high = some (hi + 1))))))) := by
  have hinv := reachable_boardinv gs hr
  refine ⟨hinv, fun pid => pass_board gs pid, fun pid card => ?_⟩
  refine ⟨play_preserves_boardinv gs pid card hinv, ?_, ?_⟩
  · by_cases hidx : gs.current_player_index < gs.players.length
    case neg =>
      intro _
      unfold play_card_logic
      rw [if_neg hidx]
    case pos =>
      intro hsome
      rcases play_spec gs pid card hidx with
        ⟨h, hres⟩ | ⟨h, hR, hres⟩ | ⟨h, hR, ha, hres⟩ | ⟨h, hR, ha, hb, hres⟩ |
        ⟨s, h, hR, ha, hb, h7, hs, hres⟩ | ⟨s, h, hR, ha, hb, h7, hs, hres⟩ |
        ⟨s, h, hR, ha, hb, h7, hs, hres⟩ |
        ⟨s, ri, lo, hi, h, hR, ha, hb, h7, hs, hlo, hhi, hv, hres⟩ |
        ⟨s, ri, lo, hi, h, hR, ha, hb, h7, hs, hlo, hhi, hv1, hv2, hres⟩ |
        ⟨s, ri, lo, hi, h, hR, ha, hb, h7, hs, hlo, hhi, hv1, hv2, hres⟩ |
        ⟨s, h, hR, ha, hb, h7, hs, hun, hres⟩ <;>
        rw [hres] <;>
        first
          | rfl
          | (rw [hres, play_finish_err] at hsome; simp at hsome)
  · by_cases hidx : gs.current_player_index < gs.players.length
    case neg =>
      intro herr
      unfold play_card_logic at herr
      rw [if_neg hidx] at herr
      simp at herr
    case pos =>
      intro herr
      rcases play_spec gs pid card hidx with
        ⟨h, hres⟩ | ⟨h, hR, hres⟩ | ⟨h, hR, ha, hres⟩ | ⟨h, hR, ha, hb, hres⟩ |
        ⟨s, h, hR, ha, hb, h7, hs, hres⟩ | ⟨s, h, hR, ha, hb, h7, hs, hres⟩ |
        ⟨s, h, hR, ha, hb, h7, hs, hres⟩ |
        ⟨s, ri, lo, hi, h, hR, ha, hb, h7, hs, hlo, hhi, hv, hres⟩ |
        ⟨s, ri, lo, hi, h, hR, ha, hb, h7, hs, hlo, hhi, hv1, hv2, hres⟩ |
        ⟨s, ri, lo, hi, h, hR, ha, hb, h7, hs, hlo, hhi, hv1, hv2, hres⟩ |
        ⟨s, h, hR, ha, hb, h7, hs, hun, hres⟩
      · rw [hres] at herr; simp at herr
      · rw [hres] at herr; simp at herr
      · rw [hres] at herr; simp at herr
      · rw [hres] at herr; simp at herr
      · rw [hres] at herr; simp at herr
      · -- anchor play
        have hsin := boardinv_bget gs.board card.suit s hinv hb
        obtain ⟨hllow, hhigh, hcards⟩ := hsin.1 hs
        refine ⟨s, ⟨some 7, some 7, true, s.cards ++ [card]⟩, hb, ?_, ?_, rfl, rfl, ?_⟩
        · rw [hres, play_finish_board]
          exact bget_bset_same gs.board card.suit _ s hb
        · intro name hn
          rw [hres, play_finish_board]
          exact bget_bset_other gs.board card.suit _ name hn
        · exact Or.inl ⟨h7, hs, hllow, hhigh, hcards, rfl, rfl⟩
      · rw [hres] at herr; simp at herr
      · -- low extension
        refine ⟨s, ⟨some ri.value, some hi, true, s.cards ++ [card]⟩, hb, ?_, ?_, rfl, rfl, ?_⟩
        · rw [hres, play_finish_board]
          exact bget_bset_same gs.board card.suit _ s hb
        · intro name hn
          rw [hres, play_finish_board]
          exact bget_bset_other gs.board card.suit _ name hn
        · exact Or.inr ⟨h7, hs, lo, hi, hlo, hhi, Or.inl ⟨by rw [hv], rfl⟩⟩
      · -- high extension
        refine ⟨s, ⟨some lo, some ri.value, true, s.cards ++ [card]⟩, hb, ?_, ?_, rfl, rfl, ?_⟩
        · rw [hres, play_finish_board]
          exact bget_bset_same gs.board card.suit _ s hb
        · intro name hn
          rw [hres, play_finish_board]
          exact bget_bset_other gs.board card.suit _ name hn
        · exact Or.inr ⟨h7, hs, lo, hi, hlo, hhi, Or.inr ⟨rfl, by rw [hv2]⟩⟩
      · rw [hres] at herr; simp at herr
      · rw [hres] at herr; simp at herr

/-- Witness for C7: the invariant at a concrete reachable state. -/
theorem c7_witness : BoardInv (initialize_game_state [wPlayerA, wPlayerB] []).board :=
  (c7_suitrun_invariant (initialize_game_state [wPlayerA, wPlayerB] [])
    (Reachable.init [wPlayerA, wPlayerB] [])).1

/-! ## C8: the round-robin deal -/

/-- `getD` after an in-range `set` at the same index. -/
theorem getD_set_self (L : List (List Card)) (m : Nat) (x : List Card)
    (hm : m < L.length) : (L.set m x).getD m [] = x := by
  rw [List.getD_eq_getElem?_getD, List.getElem?_set_self hm]
  rfl

/-- `getD` after a `set` at a different index. -/
theorem getD_set_ne (L : List (List Card)) (m j : Nat) (x : List Card)
    (h : m ≠ j) : (L.set m x).getD j [] = L.getD j [] := by
  rw [List.getD_eq_getElem?_getD, List.getElem?_set_ne h,
    ← List.getD_eq_getElem?_getD]

/-- Every slot of the initial all-empty hands list is empty. -/
theorem getD_replicate (n j : Nat) :
    (List.replicate n ([] : List Card)).getD j [] = [] := by
  rw [List.getD_eq_getElem?_getD, List.getElem?_replicate]
  split_ifs <;> rfl

/-- Appending one card to one hand permutes the flattened hands by one
appended card. -/
theorem flatten_set_append (L : List (List Card)) (m : Nat) (c : Card)
    (hm : m < L.length) :
    (L.set m (L.getD m [] ++ [c])).flatten.Perm (L.flatten ++ [c]) := by
  induction L generalizing m with
  | nil => simp at hm
  | cons a t ih =>
    cases m with
    | zero =>
      simp only [List.set_cons_zero, List.getD_cons_zero, List.flatten_cons]
      rw [List.append_assoc, List.append_assoc]
      exact List.Perm.append_left a List.perm_append_comm
    | succ m =>
      simp only [List.set_cons_succ, List.getD_cons_succ, List.flatten_cons]
      rw [List.append_assoc]
      exact List.Perm.append_left a (ih m (Nat.lt_of_succ_lt_succ hm))

/-- Invariant of the `deal_cards` fold: the hands count stays fixed, the
flattened hands accumulate exactly the consumed cards, and hand `j` is the
sub-sequence of cards whose running index is `j` modulo the player
count. -/
theorem deal_fold (n : Nat) (hn : 0 < n) :
    ∀ (ds : List Card) (hands : List (List Card)) (k : Nat),
      hands.length = n →
      ((ds.foldl (deal_step n) (hands, k)).1.length = n ∧
       (ds.foldl (deal_step n) (hands, k)).1.flatten.Perm (hands.flatten ++ ds) ∧
       ∀ j, j < n → (ds.foldl (deal_step n) (hands, k)).1.getD j [] =
         hands.getD j [] ++
           ((List.enumFrom k ds).filter (fun p => p.1 % n = j)).map Prod.snd)
  | [], hands, k, hl => by
    refine ⟨hl, by simp, ?_⟩
    intro j hj
    simp [List.enumFrom]
  | c :: rest, hands, k, hl => by
    have hmlt : k % n < hands.length := by rw [hl]; exact Nat.mod_lt _ hn
    have hl2 : (hands.set (k % n) (hands.getD (k % n) [] ++ [c])).length = n := by
      rw [List.length_set, hl]
    have step_eq : (c :: rest).foldl (deal_step n) (hands, k) =
        rest.foldl (deal_step n)
          (hands.set (k % n) (hands.getD (k % n) [] ++ [c]), k + 1) := rfl
    obtain ⟨ih1, ih2, ih3⟩ :=
      deal_fold n hn rest (hands.set (k % n) (hands.getD (k % n) [] ++ [c])) (k + 1) hl2
    rw [step_eq]
    refine ⟨ih1, ?_, ?_⟩
    · refine ih2.trans ?_
      have hfl := (flatten_set_append hands (k % n) c hmlt).append_right rest
      refine hfl.trans ?_
      rw [List.append_assoc, List.singleton_append]
    · intro j hj
      rw [ih3 j hj, List.enumFrom_cons, List.filter_cons]
      by_cases hkj : k % n = j
      · rw [if_pos (by simpa using hkj), ← hkj, getD_set_self hands (k % n) _ hmlt]
        simp [List.append_assoc]
      · rw [if_neg (by simpa using hkj)]
        rw [getD_set_ne hands (k % n) j _ hkj]

/-- The number of cards dealt to hand `j` equals the number of deck
indices congruent to `j`. -/
theorem enum_filter_len (n j : Nat) :
    ∀ (ds : List Card) (k : Nat),
      (((List.enumFrom k ds).filter (fun p => p.1 % n = j)).map Prod.snd).length =
        ((List.range' k ds.length).filter (fun i => i % n = j)).length
  | [], k => by simp [List.enumFrom]
  | c :: rest, k => by
    rw [List.enumFrom_cons, List.length_cons, List.range'_succ, List.filter_cons,
      List.filter_cons]
    by_cases h : k % n = j
    · simp only [if_pos (show decide ((k, c).1 % n = j) = true by simpa using h),
        if_pos (show decide (k % n = j) = true by simpa using h),
        List.map_cons, List.length_cons]
      rw [enum_filter_len n j rest (k + 1)]
    · simp only [if_neg (show ¬decide ((k, c).1 % n = j) = true by simpa using h),
        if_neg (show ¬decide (k % n = j) = true by simpa using h)]
      rw [enum_filter_len n j rest (k + 1)]

/-- The built 52-card deck has no duplicates. -/
theorem create_deck_nodup : create_deck.Nodup := by decide

/-- The built deck has 52 cards. -/
theorem create_deck_length : create_deck.length = 52 := by decide

/-- Flattening the initial all-empty hands gives nothing. -/
theorem replicate_nil_flatten (m : Nat) :
    (List.replicate m ([] : List Card)).flatten = [] := by
  induction m with
  | zero => rfl
  | succ m ih => simp [List.replicate_succ, ih]

/-- C8: for any permutation of the built 52-card deck and any player count
n ∈ {2,3,4}, `deal_cards` deals round-robin — card `i` lands in hand
`i % n` — producing `n` pairwise-disjoint hands whose multiset union is
the full deck and whose sizes differ by at most one. -/
theorem c8_deal_round_robin (deck : List Card) (n : Nat)
    (hdeck : deck.Perm create_deck) (hn : n = 2 ∨ n = 3 ∨ n = 4) :
    (deal_cards deck n).length = n ∧
    (deal_cards deck n).flatten.Perm deck ∧
    (∀ (i : Nat) (hi : i < deck.length),
      deck[i] ∈ (deal_cards deck n).getD (i % n) []) ∧
    List.Pairwise List.Disjoint (deal_cards deck n) ∧
    (∀ i j, i < n → j < n →
      ((deal_cards deck n).getD i []).length ≤
        ((deal_cards deck n).getD j []).length + 1) := by
  have hn0 : 0 < n := by rcases hn with rfl | rfl | rfl <;> decide
  have h52 : deck.length = 52 := by rw [hdeck.length_eq, create_deck_length]
  obtain ⟨h1, h2, h3⟩ :=
    deal_fold n hn0 deck (List.replicate n []) 0 (List.length_replicate n [])
  rw [replicate_nil_flatten, List.nil_append] at h2
  have hlen : ∀ j, j < n → ((deal_cards deck n).getD j []).length =
      ((List.range' 0 deck.length).filter (fun i => i % n = j)).length := by
    intro j hj
    show ((deck.foldl (deal_step n) (List.replicate n [], 0)).1.getD j []).length = _
    rw [h3 j hj, getD_replicate, List.nil_append, enum_filter_len]
  have hflat : (deal_cards deck n).flatten.Perm deck := h2
  have hnd : deck.Nodup := hdeck.symm.nodup create_deck_nodup
  refine ⟨h1, hflat, ?_, ?_, ?_⟩
  · intro i hi
    show deck[i] ∈ (deck.foldl (deal_step n) (List.replicate n [], 0)).1.getD (i % n) []
    rw [h3 (i % n) (Nat.mod_lt _ hn0), getD_replicate, List.nil_append]
    have hg : (List.enumFrom 0 deck)[i]? = some (i, deck[i]) := by
      rw [List.getElem?_enumFrom, List.getElem?_eq_getElem hi]
      simp
    exact List.mem_map.mpr
      ⟨(i, deck[i]), List.mem_filter.mpr ⟨List.getElem?_mem hg, by simp⟩, rfl⟩
  · have hfn : (deal_cards deck n).flatten.Nodup := hflat.symm.nodup hnd
    exact (List.nodup_flatten.mp hfn).2
  · intro i j hi hj
    rw [hlen i hi, hlen j hj, h52]
    rcases hn with rfl | rfl | rfl
    · interval_cases i <;> interval_cases j <;> decide
    · interval_cases i <;> interval_cases j <;> decide
    · interval_cases i <;> interval_cases j <;> decide

/-- Witness for C8 on the unshuffled deck with two players. -/
theorem c8_witness :
    (deal_cards create_deck 2).length = 2 ∧
    List.Pairwise List.Disjoint (deal_cards create_deck 2) :=
  ⟨(c8_deal_round_robin create_deck 2 (List.Perm.refl _) (Or.inl rfl)).1,
   (c8_deal_round_robin create_deck 2 (List.Perm.refl _) (Or.inl rfl)).2.2.2.1⟩
